import Mathlib

/-!
Shallow embedding of the wen-new-standard mint-creation instruction
(src/programs/wen-new-standard/src/instructions/mint/create.rs).

The instruction is an Anchor handler.  Its declarative account constraints
(the `#[derive(Accounts)]` struct `CreateMintAccount`) are embedded as an
explicit validation pass `validateAccounts` producing a `ValidCtx`; the body
`handler` is embedded as a sequence of state transformers over `ValidCtx`,
one per inter-program call, returning `Except` — an error models the
surrounding ledger transaction aborting with no state committed.

Helpers that live in this repository outside the provided source file
(get_meta_list, get_meta_list_size, update_account_lamports_to_minimum_balance,
the seed constants, program-derived-address computation) are modelled from the
specification; each such definition says so in its doc comment.
-/

namespace Wns

/-- Ledger addresses (public keys) are modelled as naturals. -/
abbrev Pubkey := Nat

/-- Token-2022 extension types relevant to this instruction.
`uninitialized` stands for every other variant of the source enum. -/
inductive ExtensionType where
  | metadataPointer
  | groupMemberPointer
  | transferHook
  | mintCloseAuthority
  | uninitialized
deriving DecidableEq, Repr

/-- The four extensions declared on the new mint
(const MINT_EXTENSIONS in create.rs, lines 27-32). -/
def MINT_EXTENSIONS : List ExtensionType :=
  [ExtensionType.metadataPointer,
   ExtensionType.groupMemberPointer,
   ExtensionType.transferHook,
   ExtensionType.mintCloseAuthority]

/-- Error taxonomy of the instruction, following the specification (§7).
Anchor constraint failures are mapped onto it: ConstraintSeeds is
`addressMismatch`, ConstraintSpace is `sizeMismatch`, failed account
creation is `allocationFailure`; token-program rejections are
`subProtocolFailure` or `authorizationFailure`. -/
inductive WnsError where
  | addressMismatch
  | allocationFailure
  | sizeMismatch
  | subProtocolFailure
  | authorizationFailure
deriving DecidableEq, Repr

/-- Modelled from the spec: the fixed seed tag for the Manager singleton
(§4.1, seed = fixed "manager" tag).  The constant MANAGER_SEED is defined
elsewhere in the repository, outside the provided source. -/
def MANAGER_SEED : List Nat := "manager".data.map Char.toNat

/-- Modelled from the spec: the fixed seed tag for the Auxiliary Buffer
(§4.1, seed = fixed "extra-meta-list" tag + Mint address).  The constant
META_LIST_ACCOUNT_SEED is defined elsewhere in the repository, outside the
provided source. -/
def META_LIST_ACCOUNT_SEED : List Nat := "extra-meta-list".data.map Char.toNat

/-- Modelled from the spec: deterministic addressing (§4.1).  The runtime's
program-derived-address computation is not part of this repository; it is
modelled as a pure hash of the concatenated seed byte strings, returning the
derived address together with its bump discriminator. -/
def pdaOf (seeds : List (List Nat)) : Pubkey × Nat :=
  let h := seeds.flatten.foldl (fun a b => (a * 131 + b + 1) % 4294967291) 7
  (h * 2 + 1, 255 - h % 256)

/-- The seed list used for the Auxiliary Buffer of a given mint
(create.rs line 74: seeds = [META_LIST_ACCOUNT_SEED, mint.key().as_ref()]). -/
def metaListSeeds (mint : Pubkey) : List (List Nat) :=
  [META_LIST_ACCOUNT_SEED, [mint]]

/-- An account-resolution descriptor (spl ExtraAccountMeta: one-byte
discriminator, 32-byte address configuration, signer and writable flags). -/
structure ExtraAccountMeta where
  discriminator : Nat
  addressConfig : Pubkey
  isSigner : Bool
  isWritable : Bool
deriving DecidableEq, Repr

/-- Modelled from the spec: the Extension Composer's descriptor list (§4.2),
function get_meta_list of this repository (outside the provided source):
given an optional approve-account descriptor it returns the singleton list,
otherwise the fixed built-in default list, which is empty. -/
def get_meta_list (approveAccount : Option Pubkey) : List ExtraAccountMeta :=
  match approveAccount with
  | some a => [⟨1, a, false, true⟩]
  | none => []

/-- Byte size of one serialized ExtraAccountMeta descriptor. -/
def extraAccountMetaSize : Nat := 35

/-- Modelled from the spec: exact byte size of the TLV-encoded descriptor
list (§4.2): an 8-byte instruction discriminator, a 4-byte length of the
value, a 4-byte descriptor count, then the descriptors. -/
def extraAccountMetaListSizeOf (n : Nat) : Nat :=
  8 + 4 + 4 + extraAccountMetaSize * n

/-- Modelled from the spec: function get_meta_list_size of this repository
(outside the provided source): the exact byte size of the Auxiliary Buffer
for the descriptor list produced by get_meta_list. -/
def get_meta_list_size (approveAccount : Option Pubkey) : Nat :=
  extraAccountMetaListSizeOf (get_meta_list approveAccount).length

/-- Little-endian 4-byte encoding of a natural. -/
def natLE4 (n : Nat) : List Nat :=
  [n % 256, n / 256 % 256, n / 65536 % 256, n / 16777216 % 256]

/-- Modelled from the spec: the 8-byte discriminator tagging the buffer for
the transfer-hook execute instruction. -/
def executeInstructionDiscriminator : List Nat :=
  [105, 37, 101, 197, 75, 251, 102, 26]

/-- Byte encoding of one descriptor: discriminator, 32 address-config bytes
(little endian), signer flag, writable flag. -/
def encodeExtraAccountMeta (m : ExtraAccountMeta) : List Nat :=
  m.discriminator ::
    ((List.range 32).map (fun i => m.addressConfig / 256 ^ i % 256)
      ++ [cond m.isSigner 1 0, cond m.isWritable 1 0])

/-- Modelled from the spec: the TLV wire encoding of a descriptor list
(§4.6, §9): fixed header (instruction discriminator, value length,
descriptor count) followed by the encoded descriptors. -/
def encodeExtraAccountMetaList (metas : List ExtraAccountMeta) : List Nat :=
  executeInstructionDiscriminator
    ++ natLE4 (4 + extraAccountMetaSize * metas.length)
    ++ natLE4 metas.length
    ++ (metas.map encodeExtraAccountMeta).flatten

/-- The embedded token metadata blob of a mint. -/
structure TokenMetadata where
  updateAuthority : Option Pubkey
  mint : Pubkey
  name : String
  symbol : String
  uri : String
deriving DecidableEq, Repr

/-- The mint record's state: token-2022 base fields, the extension
configuration set at creation, the inline metadata, and its ledger balance. -/
structure MintState where
  decimals : Nat
  supply : Nat
  mintAuthority : Option Pubkey
  freezeAuthority : Option Pubkey
  extensions : List ExtensionType
  metadataPointerAuthority : Option Pubkey
  metadataPointerAddress : Option Pubkey
  groupMemberPointerAuthority : Option Pubkey
  transferHookAuthority : Option Pubkey
  closeAuthority : Option Pubkey
  metadata : Option TokenMetadata
  lamports : Nat
deriving DecidableEq, Repr

/-- The receiver's holding record (associated token account). -/
structure TokenAccountState where
  mint : Pubkey
  owner : Pubkey
  amount : Nat
deriving DecidableEq, Repr

/-- The instruction arguments (struct CreateMintAccountArgs). -/
structure CreateMintAccountArgs where
  name : String
  symbol : String
  uri : String
deriving DecidableEq, Repr

/-- Arguments of the token-metadata-initialize inter-program call. -/
structure TokenMetadataInitializeArgs where
  name : String
  symbol : String
  uri : String
deriving DecidableEq, Repr

/-- Accounts wired into the token-metadata-initialize inter-program call
(struct TokenMetadataInitialize in initialize_token_metadata). -/
structure TokenMetadataInitializeAccounts where
  mint : Pubkey
  metadata : Pubkey
  mintAuthority : Pubkey
  updateAuthority : Pubkey
deriving DecidableEq, Repr

/-- The validated context the handler body runs over: the accounts of
CreateMintAccount after Anchor's constraint checks and `init` allocations
have succeeded, together with the states of the freshly created records. -/
structure ValidCtx where
  payer : Pubkey
  payerLamports : Nat
  authority : Pubkey
  receiver : Pubkey
  mintAddress : Pubkey
  mint : MintState
  mintTokenAccount : TokenAccountState
  extraMetasAddress : Pubkey
  extraMetasSize : Nat
  extraMetasData : Option (List Nat)
  managerAddress : Pubkey
  mintMinBalance : Nat
deriving DecidableEq, Repr

/-- Token-2022 semantics of the token-metadata-initialize call: requires the
mint's metadata pointer to target the supplied metadata account, the supplied
mint authority to match the mint's authority (it signs the call), and the
metadata to be uninitialized; writes name, symbol and uri with the supplied
update authority into the mint. -/
def token_metadata_initialize (accs : TokenMetadataInitializeAccounts)
    (args : TokenMetadataInitializeArgs) (mint : MintState) :
    Except WnsError MintState :=
  if mint.metadataPointerAddress ≠ some accs.metadata then
    Except.error WnsError.subProtocolFailure
  else if mint.mintAuthority ≠ some accs.mintAuthority then
    Except.error WnsError.authorizationFailure
  else if mint.metadata.isSome then
    Except.error WnsError.subProtocolFailure
  else
    Except.ok { mint with
      metadata := some
        { updateAuthority := some accs.updateAuthority
          mint := accs.mint
          name := args.name
          symbol := args.symbol
          uri := args.uri } }

/-- The account wiring of initialize_token_metadata (create.rs lines 91-97):
metadata account = the mint itself, mint authority = the ephemeral authority,
update authority = the ephemeral authority. -/
def initializeTokenMetadataAccounts (ctx : ValidCtx) :
    TokenMetadataInitializeAccounts :=
  { mint := ctx.mintAddress
    metadata := ctx.mintAddress
    mintAuthority := ctx.authority
    updateAuthority := ctx.authority }

/-- Method initialize_token_metadata of CreateMintAccount (create.rs
lines 90-101): performs the metadata-initialize inter-program call. -/
def initialize_token_metadata (ctx : ValidCtx)
    (args : TokenMetadataInitializeArgs) : Except WnsError ValidCtx :=
  match token_metadata_initialize (initializeTokenMetadataAccounts ctx)
      args ctx.mint with
  | Except.error e => Except.error e
  | Except.ok m => Except.ok { ctx with mint := m }

/-- Method mint_to_receiver (create.rs lines 103-112): the mint-to
inter-program call for amount 1, authorized by the ephemeral authority;
token-2022 requires the signing authority to be the mint's authority. -/
def mint_to_receiver (ctx : ValidCtx) : Except WnsError ValidCtx :=
  if ctx.mint.mintAuthority ≠ some ctx.authority then
    Except.error WnsError.authorizationFailure
  else
    Except.ok { ctx with
      mint := { ctx.mint with supply := ctx.mint.supply + 1 }
      mintTokenAccount := { ctx.mintTokenAccount with
        amount := ctx.mintTokenAccount.amount + 1 } }

/-- Method update_mint_authority (create.rs lines 114-122): the set-authority
inter-program call for AuthorityType::MintTokens; token-2022 requires the
signing current authority to be the mint's authority, then replaces it. -/
def update_mint_authority (ctx : ValidCtx) (managerAuth : Pubkey) :
    Except WnsError ValidCtx :=
  if ctx.mint.mintAuthority ≠ some ctx.authority then
    Except.error WnsError.authorizationFailure
  else
    Except.ok { ctx with
      mint := { ctx.mint with mintAuthority := some managerAuth } }

/-- Modelled from the spec: ExtraAccountMetaList.init of the TLV library
(§4.6): fails when the buffer is smaller than the exact encoded size,
otherwise writes the TLV-encoded descriptor list into the buffer. -/
def extraAccountMetaListInit (size : Nat) (metas : List ExtraAccountMeta) :
    Except WnsError (List Nat) :=
  if size < extraAccountMetaListSizeOf metas.length then
    Except.error WnsError.sizeMismatch
  else
    Except.ok (encodeExtraAccountMetaList metas)

/-- The auxiliary-buffer initialization step of the handler (create.rs
lines 143-146): writes get_meta_list(None) into the extra-metas account. -/
def initExtraMetas (ctx : ValidCtx) : Except WnsError ValidCtx :=
  match extraAccountMetaListInit ctx.extraMetasSize (get_meta_list none) with
  | Except.error e => Except.error e
  | Except.ok bytes => Except.ok { ctx with extraMetasData := some bytes }

/-- Modelled from the spec: update_account_lamports_to_minimum_balance of
this repository (outside the provided source), the Balance Reconciler (§4.7):
if the account balance is below the rent-exemption minimum, transfer the
shortfall from the payer; no-op when already sufficient.  Returns the new
(account, payer) balances. -/
def update_account_lamports_to_minimum_balance
    (minBalance lamports payerLamports : Nat) :
    Except WnsError (Nat × Nat) :=
  if lamports < minBalance then
    if payerLamports < minBalance - lamports then
      Except.error WnsError.allocationFailure
    else
      Except.ok (minBalance, payerLamports - (minBalance - lamports))
  else
    Except.ok (lamports, payerLamports)

/-- The balance top-up step of the handler (create.rs lines 148-153),
applied to the mint account with the payer as the funding source. -/
def topUpMintLamports (ctx : ValidCtx) : Except WnsError ValidCtx :=
  match update_account_lamports_to_minimum_balance
      ctx.mintMinBalance ctx.mint.lamports ctx.payerLamports with
  | Except.error e => Except.error e
  | Except.ok (l, p) =>
      Except.ok { ctx with
        mint := { ctx.mint with lamports := l }
        payerLamports := p }

/-- Observable events of the handler body, one per step performed. -/
inductive Event where
  | metadataInit
  | mintTo
  | setAuthority
  | extraMetasInit
  | lamportsTopUp
deriving DecidableEq, Repr

/-- The handler body (create.rs lines 125-155) with its execution trace: the
five steps run in source order, each appending its event when attempted; the
first error aborts the remainder. -/
def handlerRun (ctx : ValidCtx) (args : CreateMintAccountArgs) :
    Except WnsError ValidCtx × List Event :=
  match initialize_token_metadata ctx
      { name := args.name, symbol := args.symbol, uri := args.uri } with
  | Except.error e => (Except.error e, [Event.metadataInit])
  | Except.ok c1 =>
    match mint_to_receiver c1 with
    | Except.error e => (Except.error e, [Event.metadataInit, Event.mintTo])
    | Except.ok c2 =>
      -- the source binds manager_pubkey = ctx.accounts.manager.key() here
      match update_mint_authority c2 c2.managerAddress with
      | Except.error e =>
          (Except.error e,
           [Event.metadataInit, Event.mintTo, Event.setAuthority])
      | Except.ok c3 =>
        match initExtraMetas c3 with
        | Except.error e =>
            (Except.error e,
             [Event.metadataInit, Event.mintTo, Event.setAuthority,
              Event.extraMetasInit])
        | Except.ok c4 =>
          match topUpMintLamports c4 with
          | Except.error e =>
              (Except.error e,
               [Event.metadataInit, Event.mintTo, Event.setAuthority,
                Event.extraMetasInit, Event.lamportsTopUp])
          | Except.ok c5 =>
              (Except.ok c5,
               [Event.metadataInit, Event.mintTo, Event.setAuthority,
                Event.extraMetasInit, Event.lamportsTopUp])

/-- The handler body's result (pub fn handler, create.rs lines 125-155). -/
def handler (ctx : ValidCtx) (args : CreateMintAccountArgs) :
    Except WnsError ValidCtx :=
  (handlerRun ctx args).1

/-- The handler body's execution trace. -/
def handlerTrace (ctx : ValidCtx) (args : CreateMintAccountArgs) :
    List Event :=
  (handlerRun ctx args).2

/-- The raw accounts and balances supplied to the instruction, before
Anchor's constraint checks run.  `extraMetasPreexisting` is the allocated
size of the extra-metas account when it already exists, none when the account
is fresh; `allocCost` is the total lamport cost of the allocations funded by
the payer; `mintLamports` is the mint account's balance entering the handler
body; `mintMinBalance` is the rent-exemption minimum for the mint record. -/
structure AccountsInput where
  payer : Pubkey
  payerLamports : Nat
  authority : Pubkey
  receiver : Pubkey
  mintAddress : Pubkey
  mintLamports : Nat
  extraMetasAddress : Pubkey
  extraMetasPreexisting : Option Nat
  managerAddress : Pubkey
  allocCost : Nat
  mintMinBalance : Nat
deriving DecidableEq, Repr

/-- The mint state produced by Anchor's `init` constraints on the mint
account (create.rs lines 45-60): precision 0, supply 0, mint authority = the
ephemeral authority, freeze authority = manager, the four MINT_EXTENSIONS,
metadata pointer (authority, mint itself), group-member pointer authority,
transfer-hook authority = the ephemeral authority, close authority = manager,
no metadata yet. -/
def initMintState (authority manager mintAddress : Pubkey)
    (lamports : Nat) : MintState :=
  { decimals := 0
    supply := 0
    mintAuthority := some authority
    freezeAuthority := some manager
    extensions := MINT_EXTENSIONS
    metadataPointerAuthority := some authority
    metadataPointerAddress := some mintAddress
    groupMemberPointerAuthority := some authority
    transferHookAuthority := some authority
    closeAuthority := some manager
    metadata := none
    lamports := lamports }

/-- The Anchor account-validation pass of CreateMintAccount (create.rs
lines 34-88), in account order: the payer funds the allocations
(insufficient funds abort as allocationFailure); the mint and the receiver's
associated token account are initialized; the extra-metas account must sit at
its derived address (ConstraintSeeds, mapped to addressMismatch) and, when it
already exists, its allocated size must equal get_meta_list_size(None)
(ConstraintSpace of init_if_needed, mapped to sizeMismatch), otherwise it is
freshly allocated with that size; the manager must sit at its derived address
(ConstraintSeeds, mapped to addressMismatch). -/
def validateAccounts (inp : AccountsInput) : Except WnsError ValidCtx :=
  if inp.payerLamports < inp.allocCost then
    Except.error WnsError.allocationFailure
  else if inp.extraMetasAddress ≠ (pdaOf (metaListSeeds inp.mintAddress)).1 then
    Except.error WnsError.addressMismatch
  else
    match inp.extraMetasPreexisting with
    | some n =>
      if n ≠ get_meta_list_size none then
        Except.error WnsError.sizeMismatch
      else if inp.managerAddress ≠ (pdaOf [MANAGER_SEED]).1 then
        Except.error WnsError.addressMismatch
      else
        Except.ok
          { payer := inp.payer
            payerLamports := inp.payerLamports - inp.allocCost
            authority := inp.authority
            receiver := inp.receiver
            mintAddress := inp.mintAddress
            mint := initMintState inp.authority inp.managerAddress
              inp.mintAddress inp.mintLamports
            mintTokenAccount :=
              { mint := inp.mintAddress, owner := inp.receiver, amount := 0 }
            extraMetasAddress := inp.extraMetasAddress
            extraMetasSize := n
            extraMetasData := none
            managerAddress := inp.managerAddress
            mintMinBalance := inp.mintMinBalance }
    | none =>
      if inp.managerAddress ≠ (pdaOf [MANAGER_SEED]).1 then
        Except.error WnsError.addressMismatch
      else
        Except.ok
          { payer := inp.payer
            payerLamports := inp.payerLamports - inp.allocCost
            authority := inp.authority
            receiver := inp.receiver
            mintAddress := inp.mintAddress
            mint := initMintState inp.authority inp.managerAddress
              inp.mintAddress inp.mintLamports
            mintTokenAccount :=
              { mint := inp.mintAddress, owner := inp.receiver, amount := 0 }
            extraMetasAddress := inp.extraMetasAddress
            extraMetasSize := get_meta_list_size none
            extraMetasData := none
            managerAddress := inp.managerAddress
            mintMinBalance := inp.mintMinBalance }

/-- The whole instruction: Anchor validation followed by the handler body. -/
def createMintAccount (inp : AccountsInput) (args : CreateMintAccountArgs) :
    Except WnsError ValidCtx :=
  match validateAccounts inp with
  | Except.error e => Except.error e
  | Except.ok ctx => handler ctx args

/-- The state the surrounding runtime commits: the final context on success,
nothing on any error (transaction atomicity, spec §5/§6). -/
def committedState (inp : AccountsInput) (args : CreateMintAccountArgs) :
    Option ValidCtx :=
  (createMintAccount inp args).toOption

/-! ### Concrete evaluation inputs -/

/-- Sample instruction arguments (the end-to-end scenario of spec §8). -/
def argsW : CreateMintAccountArgs :=
  { name := "Asset #1", symbol := "AST", uri := "https://example/1.json" }

/-- A second set of instruction arguments, differing from argsW only in the
caller-supplied strings. -/
def argsW2 : CreateMintAccountArgs :=
  { name := "Asset #2", symbol := "AS2", uri := "https://example/2.json" }

/-- A concrete valid account set: fresh payer, authority, receiver and mint,
the extra-metas account and the manager at their derived addresses. -/
def inpW : AccountsInput :=
  { payer := 2
    payerLamports := 1000000
    authority := 1
    receiver := 3
    mintAddress := 4
    mintLamports := 0
    extraMetasAddress := (pdaOf (metaListSeeds 4)).1
    extraMetasPreexisting := none
    managerAddress := (pdaOf [MANAGER_SEED]).1
    allocCost := 1000
    mintMinBalance := 5000 }

/-- inpW with the Auxiliary Buffer pre-allocated at 10 bytes, smaller than
the computed size. -/
def inpSmallBuf : AccountsInput := { inpW with extraMetasPreexisting := some 10 }

/-- inpW with a manager account not at the derived manager address. -/
def inpBadManager : AccountsInput := { inpW with managerAddress := 0 }

/-- A placeholder context (never produced by a successful run). -/
def dummyCtx : ValidCtx :=
  { payer := 0
    payerLamports := 0
    authority := 0
    receiver := 0
    mintAddress := 0
    mint := initMintState 0 0 0 0
    mintTokenAccount := { mint := 0, owner := 0, amount := 0 }
    extraMetasAddress := 0
    extraMetasSize := 0
    extraMetasData := none
    managerAddress := 0
    mintMinBalance := 0 }

/-- The validated context of inpW. -/
def ctxW : ValidCtx :=
  match validateAccounts inpW with
  | Except.ok c => c
  | Except.error _ => dummyCtx

/-- The committed state of the run on inpW with argsW. -/
def resW : ValidCtx :=
  match createMintAccount inpW argsW with
  | Except.ok c => c
  | Except.error _ => dummyCtx

/-- The committed state of the run on inpW with argsW2. -/
def resW2 : ValidCtx :=
  match createMintAccount inpW argsW2 with
  | Except.ok c => c
  | Except.error _ => dummyCtx

/-! ### Helper lemmas characterizing each step on success -/

theorem initialize_token_metadata_ok (ctx : ValidCtx)
    (args : TokenMetadataInitializeArgs) (c : ValidCtx)
    (h : initialize_token_metadata ctx args = Except.ok c) :
    ctx.mint.mintAuthority = some ctx.authority ∧
    ctx.mint.metadataPointerAddress = some ctx.mintAddress ∧
    ctx.mint.metadata = none ∧
    c = { ctx with mint := { ctx.mint with
      metadata := some
        { updateAuthority := some ctx.authority
          mint := ctx.mintAddress
          name := args.name
          symbol := args.symbol
          uri := args.uri } } } := by
  unfold initialize_token_metadata token_metadata_initialize
    initializeTokenMetadataAccounts at h
  split at h
  · exact absurd h (by simp)
  · rename_i m heq
    split at heq
    · exact absurd heq (by simp)
    · split at heq
      · exact absurd heq (by simp)
      · split at heq
        · exact absurd heq (by simp)
        · rename_i h1 h2 h3
          simp only [ne_eq, not_not] at h1 h2
          simp only [Option.isSome_iff_exists, not_exists] at h3
          cases heq
          cases h
          refine ⟨h2, h1, ?_, rfl⟩
          cases hm : ctx.mint.metadata with
          | none => rfl
          | some md => exact absurd hm (h3 md)

theorem mint_to_receiver_ok (ctx c : ValidCtx)
    (h : mint_to_receiver ctx = Except.ok c) :
    ctx.mint.mintAuthority = some ctx.authority ∧
    c = { ctx with
      mint := { ctx.mint with supply := ctx.mint.supply + 1 }
      mintTokenAccount := { ctx.mintTokenAccount with
        amount := ctx.mintTokenAccount.amount + 1 } } := by
  unfold mint_to_receiver at h
  split at h
  · exact absurd h (by simp)
  · rename_i h1
    simp only [ne_eq, not_not] at h1
    cases h
    exact ⟨h1, rfl⟩

theorem update_mint_authority_ok (ctx : ValidCtx) (managerAuth : Pubkey)
    (c : ValidCtx) (h : update_mint_authority ctx managerAuth = Except.ok c) :
    ctx.mint.mintAuthority = some ctx.authority ∧
    c = { ctx with
      mint := { ctx.mint with mintAuthority := some managerAuth } } := by
  unfold update_mint_authority at h
  split at h
  · exact absurd h (by simp)
  · rename_i h1
    simp only [ne_eq, not_not] at h1
    cases h
    exact ⟨h1, rfl⟩

theorem initExtraMetas_ok (ctx c : ValidCtx)
    (h : initExtraMetas ctx = Except.ok c) :
    extraAccountMetaListSizeOf (get_meta_list none).length ≤ ctx.extraMetasSize ∧
    c = { ctx with
      extraMetasData :=
        some (encodeExtraAccountMetaList (get_meta_list none)) } := by
  unfold initExtraMetas extraAccountMetaListInit at h
  split at h
  · exact absurd h (by simp)
  · rename_i bytes heq
    split at heq
    · exact absurd heq (by simp)
    · rename_i h1
      cases heq
      cases h
      exact ⟨Nat.le_of_not_lt h1, rfl⟩

theorem topUpMintLamports_ok (ctx c : ValidCtx)
    (h : topUpMintLamports ctx = Except.ok c) :
    ctx.mint.lamports ≤ c.mint.lamports ∧
    c = { ctx with
      mint := { ctx.mint with lamports := c.mint.lamports }
      payerLamports := c.payerLamports } := by
  unfold topUpMintLamports update_account_lamports_to_minimum_balance at h
  split at h
  · exact absurd h (by simp)
  · rename_i lp heq
    split at heq
    · split at heq
      · exact absurd heq (by simp)
      · rename_i h1 h2
        cases heq
        cases h
        exact ⟨Nat.le_of_lt h1, rfl⟩
    · rename_i h1
      cases heq
      cases h
      exact ⟨Nat.le_refl _, rfl⟩

/-- On success, the validation pass yields exactly the context built from the
inputs, with the manager and extra-metas accounts at their derived addresses,
the allocations funded by the payer, and the extra-metas size equal to the
computed size. -/
theorem validateAccounts_ok (inp : AccountsInput) (ctx : ValidCtx)
    (h : validateAccounts inp = Except.ok ctx) :
    inp.allocCost ≤ inp.payerLamports ∧
    inp.managerAddress = (pdaOf [MANAGER_SEED]).1 ∧
    inp.extraMetasAddress = (pdaOf (metaListSeeds inp.mintAddress)).1 ∧
    ctx = { payer := inp.payer
            payerLamports := inp.payerLamports - inp.allocCost
            authority := inp.authority
            receiver := inp.receiver
            mintAddress := inp.mintAddress
            mint := initMintState inp.authority inp.managerAddress
              inp.mintAddress inp.mintLamports
            mintTokenAccount :=
              { mint := inp.mintAddress, owner := inp.receiver, amount := 0 }
            extraMetasAddress := inp.extraMetasAddress
            extraMetasSize := get_meta_list_size none
            extraMetasData := none
            managerAddress := inp.managerAddress
            mintMinBalance := inp.mintMinBalance } := by
  unfold validateAccounts at h
  split at h
  · exact absurd h (by simp)
  · rename_i hfund
    split at h
    · exact absurd h (by simp)
    · rename_i haddr
      simp only [ne_eq, not_not] at haddr
      split at h
      · rename_i n hpre
        split at h
        · exact absurd h (by simp)
        · rename_i hsize
          simp only [ne_eq, not_not] at hsize
          split at h
          · exact absurd h (by simp)
          · rename_i hmgr
            simp only [ne_eq, not_not] at hmgr
            cases h
            exact ⟨Nat.le_of_not_lt hfund, hmgr, haddr, by rw [hsize]⟩
      · split at h
        · exact absurd h (by simp)
        · rename_i hmgr
          simp only [ne_eq, not_not] at hmgr
          cases h
          exact ⟨Nat.le_of_not_lt hfund, hmgr, haddr, rfl⟩

/-- Success-state characterization of the handler body: the single increment
of supply and holding balance, the authority handoff to the manager address,
the metadata written verbatim from the arguments under the ephemeral
authority, the default descriptor list written to the buffer, and every other
field carried over. -/
theorem handler_ok (ctx : ValidCtx) (args : CreateMintAccountArgs)
    (ctx' : ValidCtx) (h : handler ctx args = Except.ok ctx') :
    ctx'.mint.supply = ctx.mint.supply + 1 ∧
    ctx'.mintTokenAccount.amount = ctx.mintTokenAccount.amount + 1 ∧
    ctx'.mint.mintAuthority = some ctx.managerAddress ∧
    ctx'.mint.freezeAuthority = ctx.mint.freezeAuthority ∧
    ctx'.mint.decimals = ctx.mint.decimals ∧
    ctx'.mint.extensions = ctx.mint.extensions ∧
    ctx'.mint.metadataPointerAuthority = ctx.mint.metadataPointerAuthority ∧
    ctx'.mint.metadataPointerAddress = ctx.mint.metadataPointerAddress ∧
    ctx'.mint.groupMemberPointerAuthority
      = ctx.mint.groupMemberPointerAuthority ∧
    ctx'.mint.transferHookAuthority = ctx.mint.transferHookAuthority ∧
    ctx'.mint.closeAuthority = ctx.mint.closeAuthority ∧
    ctx'.mint.metadata = some
      { updateAuthority := some ctx.authority
        mint := ctx.mintAddress
        name := args.name
        symbol := args.symbol
        uri := args.uri } ∧
    ctx'.extraMetasSize = ctx.extraMetasSize ∧
    ctx'.extraMetasData
      = some (encodeExtraAccountMetaList (get_meta_list none)) ∧
    ctx'.extraMetasAddress = ctx.extraMetasAddress ∧
    ctx'.managerAddress = ctx.managerAddress ∧
    ctx'.authority = ctx.authority ∧
    ctx'.mintAddress = ctx.mintAddress ∧
    ctx'.receiver = ctx.receiver ∧
    ctx'.payer = ctx.payer ∧
    ctx'.mintTokenAccount.mint = ctx.mintTokenAccount.mint ∧
    ctx'.mintTokenAccount.owner = ctx.mintTokenAccount.owner ∧
    ctx.mint.lamports ≤ ctx'.mint.lamports ∧
    extraAccountMetaListSizeOf (get_meta_list none).length
      ≤ ctx.extraMetasSize := by
  unfold handler handlerRun at h
  split at h
  · exact absurd h (by simp)
  · rename_i c1 heq1
    split at h
    · exact absurd h (by simp)
    · rename_i c2 heq2
      split at h
      · exact absurd h (by simp)
      · rename_i c3 heq3
        split at h
        · exact absurd h (by simp)
        · rename_i c4 heq4
          split at h
          · exact absurd h (by simp)
          · rename_i c5 heq5
            simp only [Except.ok.injEq] at h
            subst h
            obtain ⟨-, -, -, he1⟩ :=
              initialize_token_metadata_ok ctx _ c1 heq1
            obtain ⟨-, he2⟩ := mint_to_receiver_ok c1 c2 heq2
            obtain ⟨-, he3⟩ := update_mint_authority_ok c2 _ c3 heq3
            obtain ⟨hsz, he4⟩ := initExtraMetas_ok c3 c4 heq4
            obtain ⟨hlam, he5⟩ := topUpMintLamports_ok c4 c5 heq5
            subst he1 he2 he3 he4
            rw [he5]
            exact ⟨rfl, rfl, rfl, rfl, rfl, rfl, rfl, rfl, rfl, rfl, rfl,
              rfl, rfl, rfl, rfl, rfl, rfl, rfl, rfl, rfl, rfl, rfl,
              hlam, hsz⟩

/-- A successful handler run performs all five steps in source order. -/
theorem handlerTrace_of_ok (ctx : ValidCtx) (args : CreateMintAccountArgs)
    (ctx' : ValidCtx) (h : handler ctx args = Except.ok ctx') :
    handlerTrace ctx args =
      [Event.metadataInit, Event.mintTo, Event.setAuthority,
       Event.extraMetasInit, Event.lamportsTopUp] := by
  unfold handler handlerRun at h
  unfold handlerTrace handlerRun
  cases heq1 : initialize_token_metadata ctx
      { name := args.name, symbol := args.symbol, uri := args.uri } with
  | error e => rw [heq1] at h; simp at h
  | ok c1 =>
    rw [heq1] at h
    dsimp only at h ⊢
    cases heq2 : mint_to_receiver c1 with
    | error e => rw [heq2] at h; simp at h
    | ok c2 =>
      rw [heq2] at h
      dsimp only at h ⊢
      cases heq3 : update_mint_authority c2 c2.managerAddress with
      | error e => rw [heq3] at h; simp at h
      | ok c3 =>
        rw [heq3] at h
        dsimp only at h ⊢
        cases heq4 : initExtraMetas c3 with
        | error e => rw [heq4] at h; simp at h
        | ok c4 =>
          rw [heq4] at h
          dsimp only at h ⊢
          cases topUpMintLamports c4 with
          | error e => rfl
          | ok c5 => rfl

/-- A successful instruction run decomposes into a successful validation pass
followed by a successful handler run. -/
theorem createMintAccount_ok_parts (inp : AccountsInput)
    (args : CreateMintAccountArgs) (ctx' : ValidCtx)
    (h : createMintAccount inp args = Except.ok ctx') :
    ∃ ctx, validateAccounts inp = Except.ok ctx ∧
      handler ctx args = Except.ok ctx' := by
  unfold createMintAccount at h
  split at h
  · exact absurd h (by simp)
  · rename_i ctx heq
    exact ⟨ctx, heq, h⟩

/-! ### Claims -/

/-- C1: for every valid set of accounts and arguments, after the instruction
returns successfully the mint's supply is 1, the receiver's holding record
balance is 1, the mint's freeze and mint authorities both equal the manager's
derived address, and the auxiliary buffer's allocated size equals the
computed size for the default descriptor list. -/
theorem claim_c1_success_state (inp : AccountsInput)
    (args : CreateMintAccountArgs) (ctx' : ValidCtx)
    (h : createMintAccount inp args = Except.ok ctx') :
    ctx'.mint.supply = 1 ∧
    ctx'.mintTokenAccount.amount = 1 ∧
    ctx'.mint.freezeAuthority = some (pdaOf [MANAGER_SEED]).1 ∧
    ctx'.mint.mintAuthority = some (pdaOf [MANAGER_SEED]).1 ∧
    ctx'.extraMetasSize = get_meta_list_size none := by
  obtain ⟨ctx, hv, hh⟩ := createMintAccount_ok_parts inp args ctx' h
  obtain ⟨hfund, hmgr, haddr, hctx⟩ := validateAccounts_ok inp ctx hv
  obtain ⟨h1, h2, h3, h4, -, -, -, -, -, -, -, -, h13, -, -, -, -, -, -, -,
    -, -, -, -⟩ := handler_ok ctx args ctx' hh
  subst hctx
  exact ⟨h1.trans rfl, h2.trans rfl, h4.trans (congrArg some hmgr),
    h3.trans (congrArg some hmgr), h13⟩

/-- C1 witness: the success-state property instantiated on the concrete
valid run of inpW with argsW. -/
theorem claim_c1_witness :
    resW.mint.supply = 1 ∧
    resW.mintTokenAccount.amount = 1 ∧
    resW.mint.freezeAuthority = some (pdaOf [MANAGER_SEED]).1 ∧
    resW.mint.mintAuthority = some (pdaOf [MANAGER_SEED]).1 ∧
    resW.extraMetasSize = get_meta_list_size none :=
  claim_c1_success_state inpW argsW resW rfl

/-- C3: the mint record is allocated funded by the payer with decimal
precision 0, mint authority = the ephemeral authority, freeze authority =
the manager's derived address, exactly the four extensions metadata-pointer,
group-member-pointer, transfer-hook and close-authority, metadata-pointer
authority = authority, metadata-pointer target = the mint itself,
group-member-pointer authority = authority, transfer-hook authority =
authority, and close authority = manager. -/
theorem claim_c3_mint_config (inp : AccountsInput) (ctx : ValidCtx)
    (h : validateAccounts inp = Except.ok ctx) :
    ctx.mint.decimals = 0 ∧
    ctx.mint.supply = 0 ∧
    ctx.mint.mintAuthority = some inp.authority ∧
    ctx.mint.freezeAuthority = some (pdaOf [MANAGER_SEED]).1 ∧
    ctx.mint.extensions =
      [ExtensionType.metadataPointer, ExtensionType.groupMemberPointer,
       ExtensionType.transferHook, ExtensionType.mintCloseAuthority] ∧
    ctx.mint.metadataPointerAuthority = some inp.authority ∧
    ctx.mint.metadataPointerAddress = some inp.mintAddress ∧
    ctx.mint.groupMemberPointerAuthority = some inp.authority ∧
    ctx.mint.transferHookAuthority = some inp.authority ∧
    ctx.mint.closeAuthority = some (pdaOf [MANAGER_SEED]).1 ∧
    inp.allocCost ≤ inp.payerLamports ∧
    ctx.payerLamports = inp.payerLamports - inp.allocCost := by
  obtain ⟨hfund, hmgr, haddr, hctx⟩ := validateAccounts_ok inp ctx h
  subst hctx
  exact ⟨rfl, rfl, rfl, congrArg some hmgr, rfl, rfl, rfl, rfl, rfl,
    congrArg some hmgr, hfund, rfl⟩

/-- C3 witness: the mint-configuration property instantiated on the concrete
validation of inpW. -/
theorem claim_c3_witness :
    ctxW.mint.decimals = 0 ∧
    ctxW.mint.supply = 0 ∧
    ctxW.mint.mintAuthority = some inpW.authority ∧
    ctxW.mint.freezeAuthority = some (pdaOf [MANAGER_SEED]).1 ∧
    ctxW.mint.extensions =
      [ExtensionType.metadataPointer, ExtensionType.groupMemberPointer,
       ExtensionType.transferHook, ExtensionType.mintCloseAuthority] ∧
    ctxW.mint.metadataPointerAuthority = some inpW.authority ∧
    ctxW.mint.metadataPointerAddress = some inpW.mintAddress ∧
    ctxW.mint.groupMemberPointerAuthority = some inpW.authority ∧
    ctxW.mint.transferHookAuthority = some inpW.authority ∧
    ctxW.mint.closeAuthority = some (pdaOf [MANAGER_SEED]).1 ∧
    inpW.allocCost ≤ inpW.payerLamports ∧
    ctxW.payerLamports = inpW.payerLamports - inpW.allocCost :=
  claim_c3_mint_config inpW ctxW rfl

/-- C7: the Balance Reconciler is idempotent and monotone: a second
invocation on the result of a successful one returns it unchanged, and the
account balance never decreases. -/
theorem claim_c7_reconciler_idempotent_monotone (minBal l p l2 p2 : Nat)
    (h : update_account_lamports_to_minimum_balance minBal l p
      = Except.ok (l2, p2)) :
    update_account_lamports_to_minimum_balance minBal l2 p2
      = Except.ok (l2, p2) ∧
    l ≤ l2 := by
  unfold update_account_lamports_to_minimum_balance at h ⊢
  split at h
  · rename_i h1
    split at h
    · exact absurd h (by simp)
    · rename_i h2
      simp only [Except.ok.injEq, Prod.mk.injEq] at h
      obtain ⟨hl, hp⟩ := h
      subst hl
      subst hp
      rw [if_neg (by omega)]
      exact ⟨rfl, by omega⟩
  · rename_i h1
    simp only [Except.ok.injEq, Prod.mk.injEq] at h
    obtain ⟨hl, hp⟩ := h
    subst hl
    subst hp
    rw [if_neg h1]
    exact ⟨rfl, Nat.le_refl l⟩

/-- C7 witness: reconciling a balance of 40 toward a minimum of 100 with
payer balance 1000 yields 100; reconciling again is a no-op and the balance
did not decrease. -/
theorem claim_c7_witness :
    update_account_lamports_to_minimum_balance 100 100 940
      = Except.ok (100, 940) ∧
    40 ≤ 100 :=
  claim_c7_reconciler_idempotent_monotone 100 40 1000 100 940 rfl

/-- C9: deterministic addressing is pure and total: two derivations with the
same seed and the same mint address yield identical derived addresses and
identical bump discriminators. -/
theorem claim_c9_pda_deterministic (seed seed2 : List Nat)
    (mint mint2 : Pubkey) (hs : seed = seed2) (hm : mint = mint2) :
    (pdaOf [seed, [mint]]).1 = (pdaOf [seed2, [mint2]]).1 ∧
    (pdaOf [seed, [mint]]).2 = (pdaOf [seed2, [mint2]]).2 := by
  subst hs
  subst hm
  exact ⟨rfl, rfl⟩

/-- C9 witness: the purity property instantiated on the meta-list seed and
mint address 4. -/
theorem claim_c9_witness :
    (pdaOf [META_LIST_ACCOUNT_SEED, [4]]).1
      = (pdaOf [META_LIST_ACCOUNT_SEED, [4]]).1 ∧
    (pdaOf [META_LIST_ACCOUNT_SEED, [4]]).2
      = (pdaOf [META_LIST_ACCOUNT_SEED, [4]]).2 :=
  claim_c9_pda_deterministic META_LIST_ACCOUNT_SEED META_LIST_ACCOUNT_SEED
    4 4 rfl rfl

/-- C2: in every execution of the handler, whenever the mint-authority
reassignment is performed, the trace begins with the metadata-embedding call
and the mint-to-receiver call, both of which completed successfully; the
handoff is never executed before metadata embedding. -/
theorem claim_c2_ordering (ctx : ValidCtx) (args : CreateMintAccountArgs)
    (h : Event.setAuthority ∈ handlerTrace ctx args) :
    (∃ t, handlerTrace ctx args =
      [Event.metadataInit, Event.mintTo, Event.setAuthority] ++ t) ∧
    ∃ c1 c2, initialize_token_metadata ctx
        { name := args.name, symbol := args.symbol, uri := args.uri }
        = Except.ok c1 ∧
      mint_to_receiver c1 = Except.ok c2 := by
  unfold handlerTrace handlerRun at h
  cases heq1 : initialize_token_metadata ctx
      { name := args.name, symbol := args.symbol, uri := args.uri } with
  | error e => rw [heq1] at h; simp at h
  | ok c1 =>
    rw [heq1] at h
    dsimp only at h
    cases heq2 : mint_to_receiver c1 with
    | error e => rw [heq2] at h; simp at h
    | ok c2 =>
      refine ⟨?_, c1, c2, rfl, heq2⟩
      unfold handlerTrace handlerRun
      rw [heq1]
      dsimp only
      rw [heq2]
      dsimp only
      cases update_mint_authority c2 c2.managerAddress with
      | error e => exact ⟨[], rfl⟩
      | ok c3 =>
        dsimp only
        cases initExtraMetas c3 with
        | error e => exact ⟨[Event.extraMetasInit], rfl⟩
        | ok c4 =>
          dsimp only
          cases topUpMintLamports c4 with
          | error e =>
              exact ⟨[Event.extraMetasInit, Event.lamportsTopUp], rfl⟩
          | ok c5 =>
              exact ⟨[Event.extraMetasInit, Event.lamportsTopUp], rfl⟩

/-- C2 witness: the ordering property instantiated on the concrete valid
context of inpW, whose trace performs the handoff. -/
theorem claim_c2_witness :
    (∃ t, handlerTrace ctxW argsW =
      [Event.metadataInit, Event.mintTo, Event.setAuthority] ++ t) ∧
    ∃ c1 c2, initialize_token_metadata ctxW
        { name := argsW.name, symbol := argsW.symbol, uri := argsW.uri }
        = Except.ok c1 ∧
      mint_to_receiver c1 = Except.ok c2 :=
  claim_c2_ordering ctxW argsW (by decide)

/-- C5: if the Auxiliary Buffer is pre-allocated with a size strictly
smaller than the computed size for the default descriptor list, the
instruction fails with the size-mismatch error and commits no state. -/
theorem claim_c5_undersized_buffer (inp : AccountsInput)
    (args : CreateMintAccountArgs) (n : Nat)
    (hfund : inp.allocCost ≤ inp.payerLamports)
    (haddr : inp.extraMetasAddress
      = (pdaOf (metaListSeeds inp.mintAddress)).1)
    (hpre : inp.extraMetasPreexisting = some n)
    (hlt : n < get_meta_list_size none) :
    createMintAccount inp args = Except.error WnsError.sizeMismatch ∧
    committedState inp args = none := by
  have hmain :
      createMintAccount inp args = Except.error WnsError.sizeMismatch := by
    unfold createMintAccount validateAccounts
    rw [hpre, if_neg (Nat.not_lt.mpr hfund), if_neg (by simp [haddr])]
    dsimp only
    rw [if_pos (Nat.ne_of_lt hlt)]
  exact ⟨hmain, by unfold committedState; rw [hmain]; rfl⟩

/-- C5 witness: the undersized-buffer failure instantiated on inpSmallBuf,
whose buffer is pre-allocated at 10 bytes against a computed size of 16. -/
theorem claim_c5_witness :
    createMintAccount inpSmallBuf argsW = Except.error WnsError.sizeMismatch ∧
    committedState inpSmallBuf argsW = none :=
  claim_c5_undersized_buffer inpSmallBuf argsW 10 (by decide) rfl rfl
    (by decide)

/-- C8: if the supplied manager account is not at the address derived from
the fixed manager seed, the instruction fails with the address-mismatch
error and commits no state (the other accounts being well-formed). -/
theorem claim_c8_manager_mismatch (inp : AccountsInput)
    (args : CreateMintAccountArgs)
    (hmgr : inp.managerAddress ≠ (pdaOf [MANAGER_SEED]).1)
    (hfund : inp.allocCost ≤ inp.payerLamports)
    (hsize : ∀ n, inp.extraMetasPreexisting = some n
      → n = get_meta_list_size none) :
    createMintAccount inp args = Except.error WnsError.addressMismatch ∧
    committedState inp args = none := by
  have hmain :
      createMintAccount inp args = Except.error WnsError.addressMismatch := by
    unfold createMintAccount validateAccounts
    rw [if_neg (Nat.not_lt.mpr hfund)]
    by_cases haddr :
        inp.extraMetasAddress = (pdaOf (metaListSeeds inp.mintAddress)).1
    · rw [if_neg (by simp [haddr])]
      cases hpre : inp.extraMetasPreexisting with
      | some n =>
        dsimp only
        rw [if_neg (by simp [hsize n hpre]), if_pos hmgr]
      | none =>
        dsimp only
        rw [if_pos hmgr]
    · rw [if_pos haddr]
  exact ⟨hmain, by unfold committedState; rw [hmain]; rfl⟩

/-- C8 witness: the manager-mismatch failure instantiated on inpBadManager,
whose manager account sits at address 0 instead of the derived address. -/
theorem claim_c8_witness :
    createMintAccount inpBadManager argsW
      = Except.error WnsError.addressMismatch ∧
    committedState inpBadManager argsW = none :=
  claim_c8_manager_mismatch inpBadManager argsW (by decide) (by decide)
    (fun n hn => by simp [inpBadManager, inpW] at hn)

/-- C4 counterexample: on the concrete valid run of inpW with argsW the
instruction succeeds, yet the ephemeral authority (address 1, distinct from
the manager's derived address) still holds the transfer-hook authority, the
metadata-pointer authority, the group-member-pointer authority and the
metadata update authority of the mint: it is not discarded from every
authority role, only from the mint-tokens role. -/
theorem claim_c4_counterexample :
    createMintAccount inpW argsW = Except.ok resW ∧
    resW.mint.transferHookAuthority = some inpW.authority ∧
    resW.mint.metadataPointerAuthority = some inpW.authority ∧
    resW.mint.groupMemberPointerAuthority = some inpW.authority ∧
    Option.map TokenMetadata.updateAuthority resW.mint.metadata
      = some (some inpW.authority) ∧
    inpW.authority ≠ (pdaOf [MANAGER_SEED]).1 :=
  ⟨rfl, rfl, rfl, rfl, rfl, by decide⟩

/-- C4 (amended): after the transaction completes successfully, the
caller-supplied ephemeral authority is discarded from the mint-tokens
authority role: the mint authority is the manager's derived address and no
longer the ephemeral authority (which retains the metadata-update,
metadata-pointer, group-member-pointer and transfer-hook authority roles). -/
theorem claim_c4_amended (inp : AccountsInput) (args : CreateMintAccountArgs)
    (ctx' : ValidCtx) (h : createMintAccount inp args = Except.ok ctx')
    (hne : inp.authority ≠ (pdaOf [MANAGER_SEED]).1) :
    ctx'.mint.mintAuthority = some (pdaOf [MANAGER_SEED]).1 ∧
    ctx'.mint.mintAuthority ≠ some inp.authority := by
  obtain ⟨ctx, hv, hh⟩ := createMintAccount_ok_parts inp args ctx' h
  obtain ⟨-, hmgr, -, hctx⟩ := validateAccounts_ok inp ctx hv
  obtain ⟨-, -, h3, -, -, -, -, -, -, -, -, -, -, -, -, -, -, -, -, -,
    -, -, -, -⟩ := handler_ok ctx args ctx' hh
  subst hctx
  have hA : ctx'.mint.mintAuthority = some (pdaOf [MANAGER_SEED]).1 :=
    h3.trans (congrArg some hmgr)
  refine ⟨hA, ?_⟩
  rw [hA]
  intro hc
  injection hc with hc2
  exact hne hc2.symm

/-- C4 (amended) witness: the mint-tokens handoff instantiated on the
concrete valid run of inpW with argsW. -/
theorem claim_c4_amended_witness :
    resW.mint.mintAuthority = some (pdaOf [MANAGER_SEED]).1 ∧
    resW.mint.mintAuthority ≠ some inpW.authority :=
  claim_c4_amended inpW argsW resW rfl (by decide)

/-- C6: the metadata-embedding step is a single inter-program call (exactly
one in the trace) whose metadata account is the mint's own address and whose
mint and update authority accounts are the ephemeral authority; on success
the mint's metadata holds exactly the caller-supplied name, symbol and uri,
unchanged, with update authority = the ephemeral authority. -/
theorem claim_c6_metadata_embedding (ctx : ValidCtx)
    (args : CreateMintAccountArgs) (ctx' : ValidCtx)
    (h : handler ctx args = Except.ok ctx') :
    initializeTokenMetadataAccounts ctx =
      { mint := ctx.mintAddress
        metadata := ctx.mintAddress
        mintAuthority := ctx.authority
        updateAuthority := ctx.authority } ∧
    ctx'.mint.metadata = some
      { updateAuthority := some ctx.authority
        mint := ctx.mintAddress
        name := args.name
        symbol := args.symbol
        uri := args.uri } ∧
    (handlerTrace ctx args).count Event.metadataInit = 1 := by
  obtain ⟨-, -, -, -, -, -, -, -, -, -, -, h12, -, -, -, -, -, -, -, -,
    -, -, -, -⟩ := handler_ok ctx args ctx' h
  refine ⟨rfl, h12, ?_⟩
  rw [handlerTrace_of_ok ctx args ctx' h]
  rfl

/-- C6 witness: the metadata-embedding property instantiated on the concrete
valid context of inpW with argsW. -/
theorem claim_c6_witness :
    initializeTokenMetadataAccounts ctxW =
      { mint := ctxW.mintAddress
        metadata := ctxW.mintAddress
        mintAuthority := ctxW.authority
        updateAuthority := ctxW.authority } ∧
    resW.mint.metadata = some
      { updateAuthority := some ctxW.authority
        mint := ctxW.mintAddress
        name := argsW.name
        symbol := argsW.symbol
        uri := argsW.uri } ∧
    (handlerTrace ctxW argsW).count Event.metadataInit = 1 :=
  claim_c6_metadata_embedding ctxW argsW resW rfl

/-- C10: for any two successful runs differing only in the instruction
arguments, the bytes written into the Auxiliary Buffer are identical: always
the encoding of the fixed default descriptor list obtained with no
caller-supplied descriptors, independent of the arguments. -/
theorem claim_c10_buffer_independent_of_args (inp : AccountsInput)
    (a1 a2 : CreateMintAccountArgs) (r1 r2 : ValidCtx)
    (h1 : createMintAccount inp a1 = Except.ok r1)
    (h2 : createMintAccount inp a2 = Except.ok r2) :
    r1.extraMetasData = r2.extraMetasData ∧
    r1.extraMetasData
      = some (encodeExtraAccountMetaList (get_meta_list none)) := by
  obtain ⟨c1, -, hh1⟩ := createMintAccount_ok_parts inp a1 r1 h1
  obtain ⟨c2, -, hh2⟩ := createMintAccount_ok_parts inp a2 r2 h2
  obtain ⟨-, -, -, -, -, -, -, -, -, -, -, -, -, hd1, -, -, -, -, -, -,
    -, -, -, -⟩ := handler_ok c1 a1 r1 hh1
  obtain ⟨-, -, -, -, -, -, -, -, -, -, -, -, -, hd2, -, -, -, -, -, -,
    -, -, -, -⟩ := handler_ok c2 a2 r2 hh2
  exact ⟨hd1.trans hd2.symm, hd1⟩

/-- C10 witness: the two concrete runs of inpW with argsW and argsW2 write
the same bytes into the Auxiliary Buffer. -/
theorem claim_c10_witness :
    resW.extraMetasData = resW2.extraMetasData ∧
    resW.extraMetasData
      = some (encodeExtraAccountMetaList (get_meta_list none)) :=
  claim_c10_buffer_independent_of_args inpW argsW argsW2 resW resW2 rfl rfl

end Wns
